import Mathlib

/-!
Shallow embedding of the personal-finance backend in `src/backend/server.py`.

Currency amounts (Python floats) are modelled as rationals. The four Mongo
collections are modelled as lists of documents in insertion order; `find`
with an equality query becomes `List.filter`, `find_one` becomes
`List.find?`. A Python dict comprehension keyed on a field is modelled as a
lookup that returns the last matching element (a later duplicate key
overwrites an earlier one). Python's `ZeroDivisionError` is modelled by
`Except.error ()`.
-/

/-- A user document, mirroring the `User` pydantic model (the fields the
analysis logic reads). -/
structure User where
  id : String
  name : String
  email : String
  monthly_budget : ℚ
deriving Repr, DecidableEq

/-- A spending category, mirroring the `Category` pydantic model. -/
structure Category where
  id : String
  name : String
  color : String
  icon : String
  budget_percentage : ℚ
deriving Repr, DecidableEq

/-- An income record, mirroring the `Income` pydantic model. -/
structure Income where
  id : String
  user_id : String
  amount : ℚ
  source : String
  date : String
  month : Int
  year : Int
deriving Repr, DecidableEq

/-- An expense record, mirroring the `Expense` pydantic model. -/
structure Expense where
  id : String
  user_id : String
  amount : ℚ
  description : String
  category_id : String
  date : String
  month : Int
  year : Int
deriving Repr, DecidableEq

/-- The document store: the four collections, each in insertion order. -/
structure Store where
  users : List User
  income : List Income
  expenses : List Expense
  categories : List Category
deriving Repr

/-- Python `get_monthly_data`: the income and expense records matching
`user_id`, `month` and `year`, in store order. -/
def get_monthly_data (store : Store) (user_id : String) (month year : Int) :
    List Income × List Expense :=
  (store.income.filter (fun i => i.user_id == user_id && i.month == month && i.year == year),
   store.expenses.filter (fun e => e.user_id == user_id && e.month == month && e.year == year))

/-- Lookup in the dict comprehension keyed by category id
(a later duplicate key overwrites an earlier one, hence the reversal). -/
def dictById (cats : List Category) (cid : String) : Option Category :=
  cats.reverse.find? (fun c => c.id == cid)

/-- Lookup in the dict comprehension keyed by category name. -/
def dictByName (cats : List Category) (name : String) : Option Category :=
  cats.reverse.find? (fun c => c.name == name)

/-- One `defaultdict(float)` accumulation `breakdown[name] += amt`:
an existing key is updated in place, a new key is appended at the end
(Python dicts preserve insertion order). -/
def addAmount : List (String × ℚ) → String → ℚ → List (String × ℚ)
  | [], name, amt => [(name, amt)]
  | (k, v) :: rest, name, amt =>
      if k == name then (k, v + amt) :: rest
      else (k, v) :: addAmount rest name amt

/-- One iteration of the loop in `categorize_expenses`: resolve the
expense's `category_id` against the directory; when it resolves, add the
amount under the category's name, otherwise drop the expense. -/
def categorizeStep (cats : List Category) (breakdown : List (String × ℚ))
    (e : Expense) : List (String × ℚ) :=
  match dictById cats e.category_id with
  | some cat => addAmount breakdown cat.name e.amount
  | none => breakdown

/-- Python `categorize_expenses`: the per-category-name spend breakdown,
as an insertion-ordered association list (the model of the Python dict). -/
def categorize_expenses (cats : List Category) (expenses : List Expense) :
    List (String × ℚ) :=
  expenses.foldl (categorizeStep cats) []

/-- Dict lookup in the breakdown. -/
def findVal (m : List (String × ℚ)) (k : String) : Option ℚ :=
  (m.find? (fun p => p.1 == k)).map Prod.snd

/-- Python division, which raises `ZeroDivisionError` on a zero divisor. -/
def pydiv (a b : ℚ) : Except Unit ℚ :=
  if b = 0 then Except.error () else Except.ok (a / b)

/-- An overspend record as built by `detect_overspending`. -/
structure OverRec where
  category : String
  spent : ℚ
  budget : ℚ
  overspent : ℚ
  percentage : ℚ
deriving Repr, DecidableEq

/-- The expected budget of a category:
`monthly_budget * (budget_percentage / 100)`. -/
def expectedBudget (monthly_budget : ℚ) (cat : Category) : ℚ :=
  monthly_budget * (cat.budget_percentage / 100)

/-- One iteration of the loop in `detect_overspending`: skip names absent
from the directory, compute the expected budget, and append an overspend
record when spend strictly exceeds it. -/
def overspendStep (cats : List Category) (monthly_budget : ℚ)
    (acc : List OverRec) (p : String × ℚ) : Except Unit (List OverRec) :=
  match dictByName cats p.1 with
  | none => Except.ok acc
  | some cat =>
      if p.2 > expectedBudget monthly_budget cat then do
        let q ← pydiv (p.2 - expectedBudget monthly_budget cat) (expectedBudget monthly_budget cat)
        Except.ok (acc ++ [⟨p.1, p.2, expectedBudget monthly_budget cat,
          p.2 - expectedBudget monthly_budget cat, q * 100⟩])
      else Except.ok acc

/-- The comparison function of `sorted(..., key=lambda x: x.overspent,
reverse=True)`: a stable sort descending by overspent amount. -/
def ovLe (a b : OverRec) : Bool :=
  decide (b.overspent ≤ a.overspent)

/-- Python `detect_overspending`. A `ZeroDivisionError` raised inside the
loop is modelled by `Except.error ()`. -/
def detect_overspending (store : Store) (user_id : String) (month year : Int) :
    Except Unit (List OverRec) :=
  let expenses := (get_monthly_data store user_id month year).2
  let category_spending := categorize_expenses store.categories expenses
  match store.users.find? (fun u => u.id == user_id) with
  | none => Except.ok []
  | some user =>
      if user.monthly_budget = 0 then Except.ok []
      else do
        let overspending ← category_spending.foldlM
          (overspendStep store.categories user.monthly_budget) []
        Except.ok (overspending.mergeSort ovLe)

/-- Python truthiness of an optional integer query parameter: present and
nonzero. -/
def pyTruthy : Option Int → Bool
  | none => false
  | some v => v != 0

/-- The effective (month, year) used by an analysis request: when either
query parameter is absent or zero, both fall back to the current date. -/
def effectivePeriod (now : Int × Int) (monthQ yearQ : Option Int) : Int × Int :=
  if !(pyTruthy monthQ) || !(pyTruthy yearQ) then now
  else (monthQ.getD 0, yearQ.getD 0)

/-- The previous-period computation of `get_spending_analysis`:
`prev_month = month - 1 if month > 1 else 12` and
`prev_year = year if month > 1 else year - 1`. -/
def prevPeriod (month year : Int) : Int × Int :=
  (if month > 1 then month - 1 else 12, if month > 1 then year else year - 1)

/-- Sum of the amounts of a list of income records. -/
def totalOfIncome (l : List Income) : ℚ :=
  (l.map Income.amount).sum

/-- Sum of the amounts of a list of expense records. -/
def totalOfExpenses (l : List Expense) : ℚ :=
  (l.map Expense.amount).sum

/-- The `month_comparison` dict of the analysis response. -/
structure MonthComparison where
  current_month : ℚ
  previous_month : ℚ
  difference : ℚ
  percentage_change : ℚ
deriving Repr, DecidableEq

/-- The `SpendingAnalysis` response model. -/
structure SpendingAnalysis where
  total_income : ℚ
  total_expenses : ℚ
  remaining_budget : ℚ
  category_breakdown : List (String × ℚ)
  overspending_categories : List OverRec
  savings_rate : ℚ
  month_comparison : MonthComparison
deriving Repr, DecidableEq

/-- Python `get_spending_analysis`. `now` is the current (month, year) used
when either query parameter is absent or zero. A `ZeroDivisionError`
propagating out of `detect_overspending` is modelled by `Except.error ()`. -/
def get_spending_analysis (store : Store) (now : Int × Int) (user_id : String)
    (monthQ yearQ : Option Int) : Except Unit SpendingAnalysis :=
  let month := (effectivePeriod now monthQ yearQ).1
  let year := (effectivePeriod now monthQ yearQ).2
  let data := get_monthly_data store user_id month year
  let total_income := totalOfIncome data.1
  let total_expenses := totalOfExpenses data.2
  let remaining_budget := total_income - total_expenses
  let category_breakdown := categorize_expenses store.categories data.2
  do
    let overspending_categories ← detect_overspending store user_id month year
    let savings_rate := if total_income > 0 then remaining_budget / total_income * 100 else 0
    let prev := prevPeriod month year
    let prev_expense_data := (get_monthly_data store user_id prev.1 prev.2).2
    let prev_total_expenses := totalOfExpenses prev_expense_data
    let month_comparison : MonthComparison :=
      { current_month := total_expenses
        previous_month := prev_total_expenses
        difference := total_expenses - prev_total_expenses
        percentage_change :=
          if prev_total_expenses > 0 then
            (total_expenses - prev_total_expenses) / prev_total_expenses * 100
          else 0 }
    Except.ok
      { total_income := total_income
        total_expenses := total_expenses
        remaining_budget := remaining_budget
        category_breakdown := category_breakdown
        overspending_categories := overspending_categories
        savings_rate := savings_rate
        month_comparison := month_comparison }

/-- A parsed datetime; only the month and year components are read by the
record-creation endpoints. -/
structure DateObj where
  month : Int
  year : Int
deriving Repr, DecidableEq

/-- Python `add_income`: parse the record's date (after the `Z` suffix
rewrite) and overwrite the record's month and year with the parsed
components. `datetime.fromisoformat` is abstracted as `parse`; a parse
failure raises, so no record is stored. -/
def add_income (parse : String → Option DateObj) (income : Income) : Option Income :=
  (parse (income.date.replace "Z" "+00:00")).map fun d =>
    { income with month := d.month, year := d.year }

/-- Python `add_expense`: same month/year derivation as `add_income`. -/
def add_expense (parse : String → Option DateObj) (expense : Expense) : Option Expense :=
  (parse (expense.date.replace "Z" "+00:00")).map fun d =>
    { expense with month := d.month, year := d.year }

/-- A Mongo query document over `user_id` plus optional month and year
equality constraints. -/
structure RecordQuery where
  user_id : String
  month : Option Int
  year : Option Int
deriving Repr, DecidableEq

/-- Query construction shared by `get_income` and `get_expenses`: the
month and year constraints are added only when both parameters are truthy
(`if month and year`). -/
def buildQuery (user_id : String) (monthQ yearQ : Option Int) : RecordQuery :=
  if pyTruthy monthQ && pyTruthy yearQ then
    { user_id := user_id, month := monthQ, year := yearQ }
  else
    { user_id := user_id, month := none, year := none }

/-- An absent query constraint matches every value. -/
def matchOpt (o : Option Int) (v : Int) : Bool :=
  match o with
  | none => true
  | some w => v == w

/-- Whether an income record matches a query document. -/
def incomeMatches (q : RecordQuery) (i : Income) : Bool :=
  i.user_id == q.user_id && matchOpt q.month i.month && matchOpt q.year i.year

/-- Whether an expense record matches a query document. -/
def expenseMatches (q : RecordQuery) (e : Expense) : Bool :=
  e.user_id == q.user_id && matchOpt q.month e.month && matchOpt q.year e.year

/-- Python `get_income`: all income records matching the built query. -/
def get_income (store : Store) (user_id : String) (monthQ yearQ : Option Int) :
    List Income :=
  store.income.filter (incomeMatches (buildQuery user_id monthQ yearQ))

/-- Python `get_expenses`: all expense records matching the built query. -/
def get_expenses (store : Store) (user_id : String) (monthQ yearQ : Option Int) :
    List Expense :=
  store.expenses.filter (expenseMatches (buildQuery user_id monthQ yearQ))

/-- Resolved category name of an expense under the current directory. -/
def resolvedName (cats : List Category) (e : Expense) : Option String :=
  (dictById cats e.category_id).map Category.name

/-- Total amount contributed by the expenses that resolve to a given
category name. -/
def sumFor (cats : List Category) (es : List Expense) (name : String) : ℚ :=
  ((es.filter (fun e => resolvedName cats e == some name)).map Expense.amount).sum

/-- Whether one loop iteration of `detect_overspending` raises
`ZeroDivisionError`: the name resolves, spend exceeds the expected budget,
and the expected budget is zero. -/
def stepErr (cats : List Category) (mb : ℚ) (p : String × ℚ) : Bool :=
  match dictByName cats p.1 with
  | none => false
  | some cat => decide (p.2 > expectedBudget mb cat) && decide (expectedBudget mb cat = 0)

/-- The overspend record one loop iteration appends, when it appends one. -/
def emitRec (cats : List Category) (mb : ℚ) (p : String × ℚ) : Option OverRec :=
  match dictByName cats p.1 with
  | none => none
  | some cat =>
      if p.2 > expectedBudget mb cat ∧ ¬(expectedBudget mb cat = 0) then
        some ⟨p.1, p.2, expectedBudget mb cat, p.2 - expectedBudget mb cat,
          (p.2 - expectedBudget mb cat) / expectedBudget mb cat * 100⟩
      else none

/-- A fixture category: the spec's Food and Dining scenario at 15 percent. -/
def catFood : Category :=
  { id := "c1", name := "Food & Dining", color := "#3B82F6", icon := "food",
    budget_percentage := 15 }

/-- A fixture category with a zero budget share. -/
def catZero : Category :=
  { id := "c2", name := "Zero Share", color := "#000000", icon := "zero",
    budget_percentage := 0 }

/-- A fixture category at 10 percent. -/
def catA : Category :=
  { id := "ca", name := "Cat A", color := "#111111", icon := "a",
    budget_percentage := 10 }

/-- A fixture category at 5 percent. -/
def catB : Category :=
  { id := "cb", name := "Cat B", color := "#222222", icon := "b",
    budget_percentage := 5 }

/-- A fixture user with a monthly budget of 3000. -/
def userA : User :=
  { id := "u1", name := "Alice", email := "alice@example.com", monthly_budget := 3000 }

/-- A fixture user with a monthly budget of 1000. -/
def userB : User :=
  { id := "u2", name := "Bob", email := "bob@example.com", monthly_budget := 1000 }

/-- A fixture user with a zero monthly budget. -/
def userZ : User :=
  { id := "u3", name := "Zoe", email := "zoe@example.com", monthly_budget := 0 }

/-- A fixture expense of 600 in the Food and Dining category. -/
def expFood : Expense :=
  { id := "e1", user_id := "u1", amount := 600, description := "groceries",
    category_id := "c1", date := "2024-05-01T00:00:00", month := 5, year := 2024 }

/-- A fixture expense of 50 in the zero-share category. -/
def expZero : Expense :=
  { id := "e2", user_id := "u1", amount := 50, description := "misc",
    category_id := "c2", date := "2024-05-02T00:00:00", month := 5, year := 2024 }

/-- A fixture expense of 150 in category A, owned by the second user. -/
def expA : Expense :=
  { id := "e3", user_id := "u2", amount := 150, description := "a",
    category_id := "ca", date := "2024-05-03T00:00:00", month := 5, year := 2024 }

/-- A fixture expense of 200 in category B, owned by the second user. -/
def expB : Expense :=
  { id := "e4", user_id := "u2", amount := 200, description := "b",
    category_id := "cb", date := "2024-05-04T00:00:00", month := 5, year := 2024 }

/-- Fixture store with one overspent category. -/
def storeA : Store :=
  { users := [userA], income := [], expenses := [expFood], categories := [catFood] }

/-- Fixture store hitting the zero-expected-budget division. -/
def storeB : Store :=
  { users := [userA], income := [], expenses := [expFood, expZero],
    categories := [catFood, catZero] }

/-- Fixture store with two overspent categories, inserted in the order that
the sort must invert. -/
def storeC : Store :=
  { users := [userB], income := [], expenses := [expA, expB],
    categories := [catA, catB] }

/-- Fixture store with no users. -/
def storeN : Store :=
  { users := [], income := [], expenses := [expFood], categories := [catFood] }

/-- Fixture store whose only user has a zero monthly budget. -/
def storeZ : Store :=
  { users := [userZ], income := [],
    expenses := [{ expFood with user_id := "u3" }], categories := [catFood] }

/-- The overspend record of the Food and Dining fixture scenario. -/
def recFood : OverRec :=
  { category := "Food & Dining", spent := 600, budget := 450, overspent := 150,
    percentage := 100 / 3 }

/-- The overspend record of fixture category A. -/
def recA : OverRec :=
  { category := "Cat A", spent := 150, budget := 100, overspent := 50, percentage := 50 }

/-- The overspend record of fixture category B. -/
def recB : OverRec :=
  { category := "Cat B", spent := 200, budget := 50, overspent := 150, percentage := 300 }

/-- A fixture date parser that always yields July 2031. -/
def parseFix : String → Option DateObj :=
  fun _ => some { month := 7, year := 2031 }

/-- A fixture income whose stored month/year disagree with its date. -/
def incFix : Income :=
  { id := "i0", user_id := "u1", amount := 100, source := "job",
    date := "2031-07-15T00:00:00Z", month := 1, year := 1999 }

/-- A fixture income dated May 2024. -/
def incMay : Income :=
  { id := "i1", user_id := "u1", amount := 100, source := "a",
    date := "2024-05-01T00:00:00", month := 5, year := 2024 }

/-- A fixture income dated April 2024. -/
def incApr : Income :=
  { id := "i2", user_id := "u1", amount := 200, source := "b",
    date := "2024-04-01T00:00:00", month := 4, year := 2024 }

/-- Fixture store with income records in two different months. -/
def storeI : Store :=
  { users := [userA], income := [incMay, incApr], expenses := [expFood],
    categories := [catFood] }

lemma sumFor_nil (cats : List Category) (name : String) : sumFor cats [] name = 0 := rfl

lemma sumFor_cons (cats : List Category) (e : Expense) (es : List Expense) (name : String) :
    sumFor cats (e :: es) name =
      (if resolvedName cats e == some name then e.amount else 0) + sumFor cats es name := by
  by_cases h : resolvedName cats e == some name <;>
    simp [sumFor, List.filter_cons, h]

lemma findVal_nil (k : String) : findVal [] k = none := rfl

lemma findVal_cons (k : String) (v : ℚ) (l : List (String × ℚ)) (name : String) :
    findVal ((k, v) :: l) name = if k == name then some v else findVal l name := by
  by_cases h : k == name <;> simp [findVal, List.find?_cons, h]

lemma findVal_addAmount_self (m : List (String × ℚ)) (name : String) (amt : ℚ) :
    findVal (addAmount m name amt) name = some ((findVal m name).getD 0 + amt) := by
  induction m with
  | nil => simp [addAmount, findVal_cons, findVal_nil]
  | cons p rest ih =>
      obtain ⟨k, v⟩ := p
      by_cases hk : k = name
      · subst hk
        simp [addAmount, findVal_cons]
      · have hk' : (k == name) = false := by simp [hk]
        simp [addAmount, hk', findVal_cons, ih]

lemma findVal_addAmount_ne (m : List (String × ℚ)) (name : String) (amt : ℚ)
    (k : String) (h : k ≠ name) :
    findVal (addAmount m name amt) k = findVal m k := by
  induction m with
  | nil =>
      have h' : (name == k) = false := by simp [Ne.symm h]
      simp [addAmount, findVal_cons, findVal_nil, h']
  | cons p rest ih =>
      obtain ⟨k', v⟩ := p
      by_cases hk : k' = name
      · subst hk
        have h' : (k' == k) = false := by simp [Ne.symm h]
        simp [addAmount, findVal_cons, h']
      · have hk' : (k' == name) = false := by simp [hk]
        by_cases he : k' = k
        · subst he
          simp [addAmount, hk', findVal_cons]
        · have he' : (k' == k) = false := by simp [he]
          simp [addAmount, hk', findVal_cons, he', ih]

lemma fst_of_mem_addAmount (name : String) (amt : ℚ) :
    ∀ {m : List (String × ℚ)} {q : String × ℚ},
      q ∈ addAmount m name amt → q.1 = name ∨ q.1 ∈ m.map Prod.fst := by
  intro m
  induction m with
  | nil =>
      intro q hq
      simp [addAmount] at hq
      simp [hq]
  | cons p rest ih =>
      intro q hq
      obtain ⟨k, v⟩ := p
      by_cases hk : k = name
      · subst hk
        simp only [addAmount, beq_self_eq_true, if_true] at hq
        rcases List.mem_cons.mp hq with h | h
        · subst h; simp
        · exact Or.inr (List.mem_map.mpr ⟨q, List.mem_cons_of_mem _ h, rfl⟩)
      · have hk' : (k == name) = false := by simp [hk]
        simp only [addAmount, hk', if_false] at hq
        rcases List.mem_cons.mp hq with h | h
        · subst h; simp
        · rcases ih h with h' | h'
          · exact Or.inl h'
          · rcases List.mem_map.mp h' with ⟨q', hq', hfst⟩
            exact Or.inr (List.mem_map.mpr ⟨q', List.mem_cons_of_mem _ hq', hfst⟩)

lemma addAmount_pairwise {m : List (String × ℚ)} (name : String) (amt : ℚ)
    (h : m.Pairwise (fun p q => p.1 ≠ q.1)) :
    (addAmount m name amt).Pairwise (fun p q => p.1 ≠ q.1) := by
  induction m with
  | nil => simp [addAmount]
  | cons p rest ih =>
      obtain ⟨k, v⟩ := p
      rw [List.pairwise_cons] at h
      obtain ⟨h1, h2⟩ := h
      by_cases hk : k = name
      · subst hk
        simp only [addAmount, beq_self_eq_true, if_true]
        exact List.pairwise_cons.mpr ⟨h1, h2⟩
      · have hk' : (k == name) = false := by simp [hk]
        simp only [addAmount, hk', if_false]
        refine List.pairwise_cons.mpr ⟨?_, ih h2⟩
        intro q hq
        rcases fst_of_mem_addAmount name amt hq with h' | h'
        · rw [h']; exact hk
        · simp only [List.mem_map] at h'
          obtain ⟨q', hq', hfst⟩ := h'
          have := h1 q' hq'
          rw [← hfst]
          exact this

lemma categorizeStep_none (cats : List Category) (m : List (String × ℚ)) (e : Expense)
    (h : dictById cats e.category_id = none) : categorizeStep cats m e = m := by
  unfold categorizeStep
  rw [h]

lemma categorizeStep_some (cats : List Category) (m : List (String × ℚ)) (e : Expense)
    (cat : Category) (h : dictById cats e.category_id = some cat) :
    categorizeStep cats m e = addAmount m cat.name e.amount := by
  unfold categorizeStep
  rw [h]

lemma foldl_categorizeStep_pairwise (cats : List Category) :
    ∀ (es : List Expense) (m : List (String × ℚ)),
      m.Pairwise (fun p q => p.1 ≠ q.1) →
      (es.foldl (categorizeStep cats) m).Pairwise (fun p q => p.1 ≠ q.1) := by
  intro es
  induction es with
  | nil => intro m h; simpa using h
  | cons e rest ih =>
      intro m h
      rw [List.foldl_cons]
      apply ih
      unfold categorizeStep
      cases dictById cats e.category_id with
      | none => exact h
      | some cat => exact addAmount_pairwise _ _ h

lemma categorize_expenses_pairwise (cats : List Category) (es : List Expense) :
    (categorize_expenses cats es).Pairwise (fun p q => p.1 ≠ q.1) :=
  foldl_categorizeStep_pairwise cats es [] List.Pairwise.nil

lemma findVal_of_mem :
    ∀ {m : List (String × ℚ)} {k : String} {v : ℚ},
      m.Pairwise (fun p q => p.1 ≠ q.1) → (k, v) ∈ m → findVal m k = some v := by
  intro m
  induction m with
  | nil => intro k v _ hm; simp at hm
  | cons p rest ih =>
      intro k v h hm
      obtain ⟨k', v'⟩ := p
      rw [List.pairwise_cons] at h
      obtain ⟨h1, h2⟩ := h
      rcases List.mem_cons.mp hm with he | he
      · obtain ⟨hk, hv⟩ := Prod.mk.injEq .. ▸ he.symm
        subst hk; subst hv
        simp [findVal_cons]
      · have hk : k' ≠ k := by
          have := h1 (k, v) he
          simpa using this
        have hk' : (k' == k) = false := by simp [hk]
        rw [findVal_cons, hk']
        exact ih h2 he

lemma mem_of_findVal {m : List (String × ℚ)} {k : String} {v : ℚ}
    (h : findVal m k = some v) : (k, v) ∈ m := by
  unfold findVal at h
  rcases Option.map_eq_some'.mp h with ⟨a, ha, hsnd⟩
  have hfst : a.1 = k := by
    have := List.find?_some ha
    simpa using this
  have hmem := List.mem_of_find?_eq_some ha
  have : a = (k, v) := by
    cases a
    simp_all
  rw [← this]
  exact hmem

lemma findVal_foldl_some (cats : List Category) :
    ∀ (es : List Expense) (m : List (String × ℚ)) (name : String) (v : ℚ),
      findVal m name = some v →
      findVal (es.foldl (categorizeStep cats) m) name = some (v + sumFor cats es name) := by
  intro es
  induction es with
  | nil => intro m name v h; simp [sumFor_nil, h]
  | cons e rest ih =>
      intro m name v h
      rw [List.foldl_cons, sumFor_cons]
      cases hr : dictById cats e.category_id with
      | none =>
          rw [categorizeStep_none cats m e hr]
          have hres : resolvedName cats e = none := by simp [resolvedName, hr]
          rw [if_neg (by simp [hres]), zero_add]
          exact ih m name v h
      | some cat =>
          rw [categorizeStep_some cats m e cat hr]
          have hres : resolvedName cats e = some cat.name := by simp [resolvedName, hr]
          by_cases hn : cat.name = name
          · subst hn
            rw [if_pos (by simp [hres])]
            have h2 : findVal (addAmount m cat.name e.amount) cat.name = some (v + e.amount) := by
              rw [findVal_addAmount_self, h]
              rfl
            rw [ih _ _ _ h2, add_assoc]
          · rw [if_neg (by simp [hres, hn]), zero_add]
            have h2 : findVal (addAmount m cat.name e.amount) name = some v := by
              rw [findVal_addAmount_ne _ _ _ _ (fun hh => hn hh.symm)]
              exact h
            exact ih _ _ _ h2

lemma findVal_foldl_none (cats : List Category) :
    ∀ (es : List Expense) (m : List (String × ℚ)) (name : String),
      findVal m name = none →
      (∀ e ∈ es, ¬(resolvedName cats e = some name)) →
      findVal (es.foldl (categorizeStep cats) m) name = none := by
  intro es
  induction es with
  | nil => intro m name h _; simpa using h
  | cons e rest ih =>
      intro m name h hall
      rw [List.foldl_cons]
      cases hr : dictById cats e.category_id with
      | none =>
          rw [categorizeStep_none cats m e hr]
          exact ih m name h (fun e' he' => hall e' (List.mem_cons_of_mem _ he'))
      | some cat =>
          rw [categorizeStep_some cats m e cat hr]
          have hres : resolvedName cats e = some cat.name := by simp [resolvedName, hr]
          have hn : cat.name ≠ name := by
            intro hh
            exact hall e (List.mem_cons_self _ _) (by rw [hres, hh])
          have h2 : findVal (addAmount m cat.name e.amount) name = none := by
            rw [findVal_addAmount_ne _ _ _ _ (fun hh => hn hh.symm)]
            exact h
          exact ih _ name h2 (fun e' he' => hall e' (List.mem_cons_of_mem _ he'))

lemma findVal_foldl_any (cats : List Category) :
    ∀ (es : List Expense) (m : List (String × ℚ)) (name : String),
      findVal m name = none →
      (∃ e ∈ es, resolvedName cats e = some name) →
      findVal (es.foldl (categorizeStep cats) m) name = some (sumFor cats es name) := by
  intro es
  induction es with
  | nil => intro m name _ hex; simp at hex
  | cons e rest ih =>
      intro m name h hex
      rw [List.foldl_cons, sumFor_cons]
      by_cases hres : resolvedName cats e = some name
      · rcases Option.map_eq_some'.mp hres with ⟨cat, hcat, hname⟩
        rw [categorizeStep_some cats m e cat hcat]
        rw [if_pos (by simp [hres])]
        have h2 : findVal (addAmount m cat.name e.amount) name = some e.amount := by
          rw [hname, findVal_addAmount_self, h]
          simp
        exact findVal_foldl_some cats rest _ name e.amount h2
      · rw [if_neg (by simp [hres]), zero_add]
        have hex' : ∃ e' ∈ rest, resolvedName cats e' = some name := by
          rcases hex with ⟨e', he', hr'⟩
          rcases List.mem_cons.mp he' with rfl | hmem
          · exact absurd hr' hres
          · exact ⟨e', hmem, hr'⟩
        cases hr : dictById cats e.category_id with
        | none =>
            rw [categorizeStep_none cats m e hr]
            exact ih m name h hex'
        | some cat =>
            rw [categorizeStep_some cats m e cat hr]
            have hn : cat.name ≠ name := by
              intro hh
              exact hres (by simp [resolvedName, hr, hh])
            have h2 : findVal (addAmount m cat.name e.amount) name = none := by
              rw [findVal_addAmount_ne _ _ _ _ (fun hh => hn hh.symm)]
              exact h
            exact ih _ name h2 hex'

lemma findVal_categorize (cats : List Category) (es : List Expense) (name : String) :
    findVal (categorize_expenses cats es) name =
      if es.any (fun e => resolvedName cats e == some name) then some (sumFor cats es name)
      else none := by
  unfold categorize_expenses
  by_cases h : ∃ e ∈ es, resolvedName cats e = some name
  · rw [if_pos (by simpa [List.any_eq_true] using h)]
    exact findVal_foldl_any cats es [] name rfl h
  · rw [if_neg (by simpa [List.any_eq_true] using h)]
    push_neg at h
    exact findVal_foldl_none cats es [] name rfl h

lemma exceptOkBind {α β : Type} (a : α) (f : α → Except Unit β) :
    (Except.ok a >>= f) = f a := rfl

lemma exceptErrBind {α β : Type} (f : α → Except Unit β) :
    ((Except.error () : Except Unit α) >>= f) = Except.error () := rfl

lemma overspendStep_none (cats : List Category) (mb : ℚ) (acc : List OverRec)
    (p : String × ℚ) (h : dictByName cats p.1 = none) :
    overspendStep cats mb acc p = Except.ok acc := by
  unfold overspendStep
  rw [h]

lemma overspendStep_some (cats : List Category) (mb : ℚ) (acc : List OverRec)
    (p : String × ℚ) (cat : Category) (h : dictByName cats p.1 = some cat) :
    overspendStep cats mb acc p =
      if p.2 > expectedBudget mb cat then do
        let q ← pydiv (p.2 - expectedBudget mb cat) (expectedBudget mb cat)
        Except.ok (acc ++ [⟨p.1, p.2, expectedBudget mb cat,
          p.2 - expectedBudget mb cat, q * 100⟩])
      else Except.ok acc := by
  unfold overspendStep
  rw [h]

lemma stepErr_none (cats : List Category) (mb : ℚ) (p : String × ℚ)
    (h : dictByName cats p.1 = none) : stepErr cats mb p = false := by
  unfold stepErr
  rw [h]

lemma stepErr_some (cats : List Category) (mb : ℚ) (p : String × ℚ) (cat : Category)
    (h : dictByName cats p.1 = some cat) :
    stepErr cats mb p =
      (decide (p.2 > expectedBudget mb cat) && decide (expectedBudget mb cat = 0)) := by
  unfold stepErr
  rw [h]

lemma emitRec_none (cats : List Category) (mb : ℚ) (p : String × ℚ)
    (h : dictByName cats p.1 = none) : emitRec cats mb p = none := by
  unfold emitRec
  rw [h]

lemma emitRec_some (cats : List Category) (mb : ℚ) (p : String × ℚ) (cat : Category)
    (h : dictByName cats p.1 = some cat) :
    emitRec cats mb p =
      (if p.2 > expectedBudget mb cat ∧ ¬(expectedBudget mb cat = 0) then
        some ⟨p.1, p.2, expectedBudget mb cat, p.2 - expectedBudget mb cat,
          (p.2 - expectedBudget mb cat) / expectedBudget mb cat * 100⟩
      else none) := by
  unfold emitRec
  rw [h]

lemma overspendStep_err (cats : List Category) (mb : ℚ) (acc : List OverRec)
    (p : String × ℚ) (h : stepErr cats mb p = true) :
    overspendStep cats mb acc p = Except.error () := by
  cases hd : dictByName cats p.1 with
  | none => rw [stepErr_none cats mb p hd] at h; exact absurd h (by simp)
  | some cat =>
      rw [stepErr_some cats mb p cat hd] at h
      simp only [Bool.and_eq_true, decide_eq_true_eq] at h
      obtain ⟨hgt, heq⟩ := h
      rw [overspendStep_some cats mb acc p cat hd, if_pos hgt,
        show pydiv (p.2 - expectedBudget mb cat) (expectedBudget mb cat) = Except.error ()
          from by simp [pydiv, heq]]
      rfl

lemma overspendStep_ok (cats : List Category) (mb : ℚ) (acc : List OverRec)
    (p : String × ℚ) (h : stepErr cats mb p = false) :
    overspendStep cats mb acc p = Except.ok (acc ++ (emitRec cats mb p).toList) := by
  cases hd : dictByName cats p.1 with
  | none =>
      rw [overspendStep_none cats mb acc p hd, emitRec_none cats mb p hd]
      simp
  | some cat =>
      rw [stepErr_some cats mb p cat hd] at h
      rw [overspendStep_some cats mb acc p cat hd, emitRec_some cats mb p cat hd]
      by_cases hgt : p.2 > expectedBudget mb cat
      · have hne : ¬(expectedBudget mb cat = 0) := by
          intro h0
          rw [decide_eq_true hgt, decide_eq_true h0] at h
          simp at h
        rw [if_pos hgt, if_pos ⟨hgt, hne⟩,
          show pydiv (p.2 - expectedBudget mb cat) (expectedBudget mb cat) =
              Except.ok ((p.2 - expectedBudget mb cat) / expectedBudget mb cat)
            from by simp [pydiv, hne]]
        rw [exceptOkBind]
        simp
      · rw [if_neg hgt, if_neg (fun hc => hgt hc.1)]
        simp

lemma foldlM_overspendStep_ok (cats : List Category) (mb : ℚ) :
    ∀ (ps : List (String × ℚ)) (acc : List OverRec),
      (∀ p ∈ ps, stepErr cats mb p = false) →
      ps.foldlM (overspendStep cats mb) acc =
        Except.ok (acc ++ ps.filterMap (emitRec cats mb)) := by
  intro ps
  induction ps with
  | nil => intro acc _; simp; rfl
  | cons p rest ih =>
      intro acc hall
      rw [List.foldlM_cons,
        overspendStep_ok cats mb acc p (hall p (List.mem_cons_self _ _)),
        exceptOkBind,
        ih _ (fun q hq => hall q (List.mem_cons_of_mem _ hq))]
      cases he : emitRec cats mb p <;>
        simp [List.filterMap_cons, he]

lemma foldlM_overspendStep_err (cats : List Category) (mb : ℚ) :
    ∀ (ps : List (String × ℚ)) (acc : List OverRec),
      (∃ p ∈ ps, stepErr cats mb p = true) →
      ps.foldlM (overspendStep cats mb) acc = Except.error () := by
  intro ps
  induction ps with
  | nil => intro acc hex; simp at hex
  | cons p rest ih =>
      intro acc hex
      rw [List.foldlM_cons]
      by_cases hp : stepErr cats mb p = true
      · rw [overspendStep_err cats mb acc p hp, exceptErrBind]
      · rw [overspendStep_ok cats mb acc p (Bool.not_eq_true _ ▸ hp), exceptOkBind]
        apply ih
        rcases hex with ⟨q, hq, hqe⟩
        rcases List.mem_cons.mp hq with rfl | hmem
        · exact absurd hqe hp
        · exact ⟨q, hmem, hqe⟩

lemma detect_overspending_no_user (store : Store) (uid : String) (m y : Int)
    (h : store.users.find? (fun u => u.id == uid) = none) :
    detect_overspending store uid m y = Except.ok [] := by
  simp only [detect_overspending]
  rw [h]

lemma detect_overspending_user (store : Store) (uid : String) (m y : Int) (user : User)
    (h : store.users.find? (fun u => u.id == uid) = some user) :
    detect_overspending store uid m y =
      (if user.monthly_budget = 0 then Except.ok []
       else do
         let overspending ← (categorize_expenses store.categories
             (get_monthly_data store uid m y).2).foldlM
             (overspendStep store.categories user.monthly_budget) []
         Except.ok (overspending.mergeSort ovLe)) := by
  simp only [detect_overspending]
  rw [h]

lemma detect_overspending_err_char (store : Store) (uid : String) (m y : Int) (user : User)
    (hu : store.users.find? (fun u => u.id == uid) = some user)
    (hb : ¬(user.monthly_budget = 0))
    (hex : ∃ p ∈ categorize_expenses store.categories (get_monthly_data store uid m y).2,
      stepErr store.categories user.monthly_budget p = true) :
    detect_overspending store uid m y = Except.error () := by
  rw [detect_overspending_user store uid m y user hu, if_neg hb,
    foldlM_overspendStep_err _ _ _ _ hex, exceptErrBind]

lemma detect_overspending_ok_char (store : Store) (uid : String) (m y : Int) (user : User)
    (hu : store.users.find? (fun u => u.id == uid) = some user)
    (hb : ¬(user.monthly_budget = 0)) (l : List OverRec) :
    detect_overspending store uid m y = Except.ok l ↔
      ((∀ p ∈ categorize_expenses store.categories (get_monthly_data store uid m y).2,
          stepErr store.categories user.monthly_budget p = false) ∧
        l = ((categorize_expenses store.categories
            (get_monthly_data store uid m y).2).filterMap
            (emitRec store.categories user.monthly_budget)).mergeSort ovLe) := by
  by_cases hall : ∀ p ∈ categorize_expenses store.categories (get_monthly_data store uid m y).2,
      stepErr store.categories user.monthly_budget p = false
  · rw [detect_overspending_user store uid m y user hu, if_neg hb,
      foldlM_overspendStep_ok _ _ _ _ hall, exceptOkBind, List.nil_append]
    constructor
    · intro h
      exact ⟨hall, (Except.ok.injEq .. ▸ h :).symm⟩
    · rintro ⟨-, rfl⟩
      rfl
  · have hex : ∃ p ∈ categorize_expenses store.categories (get_monthly_data store uid m y).2,
        stepErr store.categories user.monthly_budget p = true := by
      push_neg at hall
      obtain ⟨p, hp, hne⟩ := hall
      exact ⟨p, hp, by simpa using hne⟩
    rw [detect_overspending_err_char store uid m y user hu hb hex]
    constructor
    · intro h; cases h
    · rintro ⟨h1, -⟩
      obtain ⟨p, hp, hne⟩ := hex
      rw [h1 p hp] at hne
      cases hne

lemma ovLe_trans : ∀ (a b c : OverRec), ovLe a b → ovLe b c → ovLe a c := by
  intro a b c hab hbc
  simp only [ovLe, decide_eq_true_eq] at *
  exact le_trans hbc hab

lemma ovLe_total : ∀ (a b : OverRec), ovLe a b || ovLe b a := by
  intro a b
  simp only [ovLe, Bool.or_eq_true, decide_eq_true_eq]
  exact le_total b.overspent a.overspent

lemma exists_resolving_of_findVal (cats : List Category) (es : List Expense)
    (name : String) (v : ℚ)
    (h : findVal (categorize_expenses cats es) name = some v) :
    ∃ e ∈ es, resolvedName cats e = some name := by
  by_contra hne
  push_neg at hne
  rw [findVal_categorize, if_neg (by simpa [List.any_eq_true] using hne)] at h
  cases h

lemma dictByName_isSome_of_findVal (cats : List Category) (es : List Expense)
    (name : String) (v : ℚ)
    (h : findVal (categorize_expenses cats es) name = some v) :
    ∃ cat, dictByName cats name = some cat := by
  obtain ⟨e, _, hr⟩ := exists_resolving_of_findVal cats es name v h
  rcases Option.map_eq_some'.mp hr with ⟨cat, hcat, hname⟩
  have : (dictByName cats name).isSome := by
    rw [dictByName, List.find?_isSome]
    exact ⟨cat, List.mem_of_find?_eq_some hcat, by simp [hname]⟩
  exact Option.isSome_iff_exists.mp this

lemma mergeSort_pair (a b : OverRec) :
    [a, b].mergeSort ovLe = if ovLe a b then [a, b] else [b, a] := by
  rw [List.mergeSort]
  simp only [List.splitInTwo, List.splitAt_eq]
  norm_num
  by_cases h : ovLe a b
  · simp [List.merge, h]
  · simp [List.merge, h]

lemma breakdownA : categorize_expenses storeA.categories
    (get_monthly_data storeA "u1" 5 2024).2 = [("Food & Dining", 600)] := by rfl

lemma breakdownB : categorize_expenses storeB.categories
    (get_monthly_data storeB "u1" 5 2024).2 =
    [("Food & Dining", 600), ("Zero Share", 50)] := by rfl

lemma breakdownC : categorize_expenses storeC.categories
    (get_monthly_data storeC "u2" 5 2024).2 = [("Cat A", 150), ("Cat B", 200)] := by rfl

lemma stepErrFoodA : stepErr storeA.categories userA.monthly_budget
    ("Food & Dining", 600) = false := by
  rw [stepErr_some storeA.categories userA.monthly_budget ("Food & Dining", 600) catFood
    (by rfl)]
  norm_num [expectedBudget, userA, catFood]

lemma emitFoodA : emitRec storeA.categories userA.monthly_budget
    ("Food & Dining", 600) = some recFood := by
  rw [emitRec_some storeA.categories userA.monthly_budget ("Food & Dining", 600) catFood
    (by rfl)]
  rw [if_pos (by norm_num [expectedBudget, userA, catFood])]
  norm_num [expectedBudget, userA, catFood, recFood]

lemma detectA : detect_overspending storeA "u1" 5 2024 = Except.ok [recFood] := by
  have hall : ∀ p ∈ categorize_expenses storeA.categories
      (get_monthly_data storeA "u1" 5 2024).2,
      stepErr storeA.categories userA.monthly_budget p = false := by
    rw [breakdownA]
    intro p hp
    rw [List.mem_singleton.mp hp]
    exact stepErrFoodA
  rw [detect_overspending_user storeA "u1" 5 2024 userA (by rfl),
    if_neg (by norm_num [userA]), foldlM_overspendStep_ok _ _ _ _ hall, exceptOkBind,
    List.nil_append, breakdownA]
  rw [show List.filterMap (emitRec storeA.categories userA.monthly_budget)
      [("Food & Dining", 600)] = [recFood] from by
    rw [List.filterMap_cons, emitFoodA]
    rfl]
  rw [List.mergeSort_singleton]

lemma stepErrA : stepErr storeC.categories userB.monthly_budget ("Cat A", 150) = false := by
  rw [stepErr_some storeC.categories userB.monthly_budget ("Cat A", 150) catA (by rfl)]
  norm_num [expectedBudget, userB, catA]

lemma stepErrB : stepErr storeC.categories userB.monthly_budget ("Cat B", 200) = false := by
  rw [stepErr_some storeC.categories userB.monthly_budget ("Cat B", 200) catB (by rfl)]
  norm_num [expectedBudget, userB, catB]

lemma emitA : emitRec storeC.categories userB.monthly_budget ("Cat A", 150) = some recA := by
  rw [emitRec_some storeC.categories userB.monthly_budget ("Cat A", 150) catA (by rfl)]
  rw [if_pos (by norm_num [expectedBudget, userB, catA])]
  norm_num [expectedBudget, userB, catA, recA]

lemma emitB : emitRec storeC.categories userB.monthly_budget ("Cat B", 200) = some recB := by
  rw [emitRec_some storeC.categories userB.monthly_budget ("Cat B", 200) catB (by rfl)]
  rw [if_pos (by norm_num [expectedBudget, userB, catB])]
  norm_num [expectedBudget, userB, catB, recB]

lemma detectC : detect_overspending storeC "u2" 5 2024 = Except.ok [recB, recA] := by
  have hall : ∀ p ∈ categorize_expenses storeC.categories
      (get_monthly_data storeC "u2" 5 2024).2,
      stepErr storeC.categories userB.monthly_budget p = false := by
    rw [breakdownC]
    intro p hp
    rcases List.mem_cons.mp hp with rfl | hp'
    · exact stepErrA
    · rw [List.mem_singleton.mp hp']
      exact stepErrB
  rw [detect_overspending_user storeC "u2" 5 2024 userB (by rfl),
    if_neg (by norm_num [userB]), foldlM_overspendStep_ok _ _ _ _ hall, exceptOkBind,
    List.nil_append, breakdownC]
  rw [show List.filterMap (emitRec storeC.categories userB.monthly_budget)
      [("Cat A", 150), ("Cat B", 200)] = [recA, recB] from by
    rw [List.filterMap_cons, emitA, List.filterMap_cons, emitB]
    rfl]
  rw [mergeSort_pair recA recB, if_neg (by norm_num [ovLe, recA, recB])]

/-- C1: for a user with positive monthly budget, when the Overspending
Detector returns a sequence, every emitted record carries
budget = monthly_budget × (budget_percentage / 100) for its directory
category, spent = that category's aggregated spend,
overspent = spent − budget (hence positive since spent exceeds budget) and
percentage = overspent / budget × 100; and a record is emitted for a
breakdown category (all of which resolve in the directory) exactly when
its aggregated spend strictly exceeds its expected budget. -/
theorem detect_overspending_record_spec
    (store : Store) (uid : String) (m y : Int) (user : User) (l : List OverRec)
    (hu : store.users.find? (fun u => u.id == uid) = some user)
    (hb : 0 < user.monthly_budget)
    (hok : detect_overspending store uid m y = Except.ok l) :
    (∀ r ∈ l, ∃ cat, dictByName store.categories r.category = some cat ∧
      r.budget = expectedBudget user.monthly_budget cat ∧
      findVal (categorize_expenses store.categories
        (get_monthly_data store uid m y).2) r.category = some r.spent ∧
      r.budget < r.spent ∧
      r.overspent = r.spent - r.budget ∧ 0 < r.overspent ∧
      r.percentage = r.overspent / r.budget * 100)
    ∧ (∀ name spent,
        findVal (categorize_expenses store.categories
          (get_monthly_data store uid m y).2) name = some spent →
        ∃ cat, dictByName store.categories name = some cat ∧
          (expectedBudget user.monthly_budget cat < spent →
            ∃ r ∈ l, r.category = name ∧ r.spent = spent)) := by
  obtain ⟨hall, rfl⟩ := (detect_overspending_ok_char store uid m y user hu hb.ne' l).mp hok
  constructor
  · intro r hr
    have hr' : r ∈ (categorize_expenses store.categories
        (get_monthly_data store uid m y).2).filterMap
        (emitRec store.categories user.monthly_budget) :=
      (List.Perm.mem_iff (List.mergeSort_perm _ ovLe)).mp hr
    obtain ⟨p, hp, he⟩ := List.mem_filterMap.mp hr'
    cases hd : dictByName store.categories p.1 with
    | none => rw [emitRec_none _ _ _ hd] at he; cases he
    | some cat =>
        rw [emitRec_some _ _ _ cat hd] at he
        by_cases hc : p.2 > expectedBudget user.monthly_budget cat ∧
            ¬(expectedBudget user.monthly_budget cat = 0)
        · rw [if_pos hc] at he
          obtain rfl := Option.some.inj he
          refine ⟨cat, hd, rfl, ?_, hc.1, rfl, ?_, rfl⟩
          · have hmem : (p.1, p.2) ∈ categorize_expenses store.categories
                (get_monthly_data store uid m y).2 := by
              rw [Prod.mk.eta]
              exact hp
            exact findVal_of_mem (categorize_expenses_pairwise _ _) hmem
          · exact sub_pos.mpr hc.1
        · rw [if_neg hc] at he
          cases he
  · intro name spent hv
    obtain ⟨cat, hcat⟩ := dictByName_isSome_of_findVal store.categories _ name spent hv
    refine ⟨cat, hcat, ?_⟩
    intro hlt
    have hmem : (name, spent) ∈ categorize_expenses store.categories
        (get_monthly_data store uid m y).2 := mem_of_findVal hv
    have hne : ¬(expectedBudget user.monthly_budget cat = 0) := by
      intro h0
      have hse := hall (name, spent) hmem
      rw [stepErr_some store.categories user.monthly_budget (name, spent) cat hcat,
        decide_eq_true (show (name, spent).2 > expectedBudget user.monthly_budget cat
          from hlt),
        decide_eq_true h0] at hse
      cases hse
    refine ⟨⟨name, spent, expectedBudget user.monthly_budget cat,
      spent - expectedBudget user.monthly_budget cat,
      (spent - expectedBudget user.monthly_budget cat) /
        expectedBudget user.monthly_budget cat * 100⟩, ?_, rfl, rfl⟩
    apply (List.Perm.mem_iff (List.mergeSort_perm _ ovLe)).mpr
    apply List.mem_filterMap.mpr
    refine ⟨(name, spent), hmem, ?_⟩
    rw [emitRec_some store.categories user.monthly_budget (name, spent) cat hcat,
      if_pos ⟨hlt, hne⟩]

/-- Witness for C1: the fixture scenario of the spec (3000 budget, 15
percent category, 600 spend) emits the 600/450/150 record. -/
theorem detect_overspending_record_spec_witness :
    detect_overspending storeA "u1" 5 2024 = Except.ok [recFood] ∧
    recFood.budget < recFood.spent ∧ recFood.overspent = recFood.spent - recFood.budget ∧
    0 < recFood.overspent ∧ recFood.percentage = recFood.overspent / recFood.budget * 100 := by
  refine ⟨detectA, ?_⟩
  obtain ⟨cat, -, -, -, h4, h5, h6, h7⟩ :=
    (detect_overspending_record_spec storeA "u1" 5 2024 userA [recFood] (by rfl)
      (by norm_num [userA]) detectA).1 recFood (List.mem_singleton.mpr rfl)
  exact ⟨h4, h5, h6, h7⟩

/-- C2 is refuted at a concrete input: on a store with a zero-percentage
category carrying positive spend and a user with positive monthly budget,
the detector reaches the division by zero (modelled `Except.error ()`)
instead of reporting a sentinel or skipping. -/
theorem detect_overspending_divzero_cex :
    detect_overspending storeB "u1" 5 2024 = Except.error () := by
  apply detect_overspending_err_char storeB "u1" 5 2024 userA (by rfl) (by norm_num [userA])
  refine ⟨("Zero Share", 50), ?_, ?_⟩
  · rw [breakdownB]
    simp
  · rw [stepErr_some storeB.categories userA.monthly_budget ("Zero Share", 50) catZero
      (by rfl)]
    norm_num [expectedBudget, userA, catZero]

/-- C2 (amended): the Overspending Detector does not guard the zero
expected-budget case: for a user with positive monthly budget, whenever a
breakdown category has positive aggregated spend and a directory category
with budget_percentage 0, evaluation raises ZeroDivisionError (modelled
`Except.error ()`). -/
theorem detect_overspending_divzero_amended
    (store : Store) (uid : String) (m y : Int) (user : User)
    (name : String) (spent : ℚ) (cat : Category)
    (hu : store.users.find? (fun u => u.id == uid) = some user)
    (hb : 0 < user.monthly_budget)
    (hv : findVal (categorize_expenses store.categories
      (get_monthly_data store uid m y).2) name = some spent)
    (hcat : dictByName store.categories name = some cat)
    (hpct : cat.budget_percentage = 0)
    (hpos : 0 < spent) :
    detect_overspending store uid m y = Except.error () := by
  apply detect_overspending_err_char store uid m y user hu hb.ne'
  refine ⟨(name, spent), mem_of_findVal hv, ?_⟩
  rw [stepErr_some store.categories user.monthly_budget (name, spent) cat hcat]
  have heb : expectedBudget user.monthly_budget cat = 0 := by
    simp [expectedBudget, hpct]
  rw [heb]
  simp [hpos]

/-- Witness for the amended C2 on the concrete zero-share fixture. -/
theorem detect_overspending_divzero_amended_witness :
    (0 : ℚ) < 50 ∧ detect_overspending storeB "u1" 5 2024 = Except.error () := by
  refine ⟨by norm_num, ?_⟩
  apply detect_overspending_divzero_amended storeB "u1" 5 2024 userA "Zero Share" 50 catZero
    (by rfl) (by norm_num [userA]) ?_ (by rfl) (by rfl) (by norm_num)
  rw [breakdownB]
  rfl

/-- C3: any sequence the Overspending Detector returns is sorted
non-increasing by overspent amount. -/
theorem detect_overspending_sorted (store : Store) (uid : String) (m y : Int)
    (l : List OverRec) (h : detect_overspending store uid m y = Except.ok l) :
    l.Pairwise (fun a b => b.overspent ≤ a.overspent) := by
  cases hu : store.users.find? (fun u => u.id == uid) with
  | none =>
      rw [detect_overspending_no_user store uid m y hu] at h
      have hl := Except.ok.inj h
      subst hl
      exact List.Pairwise.nil
  | some user =>
      by_cases hb : user.monthly_budget = 0
      · rw [detect_overspending_user store uid m y user hu, if_pos hb] at h
        have hl := Except.ok.inj h
        subst hl
        exact List.Pairwise.nil
      · obtain ⟨-, rfl⟩ := (detect_overspending_ok_char store uid m y user hu hb l).mp h
        have hs := List.sorted_mergeSort ovLe_trans ovLe_total
          ((categorize_expenses store.categories
            (get_monthly_data store uid m y).2).filterMap
            (emitRec store.categories user.monthly_budget))
        exact hs.imp (fun hab => by simpa [ovLe] using hab)

/-- Witness for C3: the two-category fixture comes back largest overspend
first. -/
theorem detect_overspending_sorted_witness :
    detect_overspending storeC "u2" 5 2024 = Except.ok [recB, recA] ∧
    [recB, recA].Pairwise (fun a b => b.overspent ≤ a.overspent) :=
  ⟨detectC, detect_overspending_sorted storeC "u2" 5 2024 [recB, recA] detectC⟩

/-- C4: when the referenced user is absent from the store, or when its
monthly_budget is exactly 0, the Overspending Detector returns the empty
sequence, whatever the expense collection holds. -/
theorem detect_overspending_empty_cases (store : Store) (uid : String) (m y : Int)
    (h : store.users.find? (fun u => u.id == uid) = none ∨
      ∃ user, store.users.find? (fun u => u.id == uid) = some user ∧
        user.monthly_budget = 0) :
    detect_overspending store uid m y = Except.ok [] := by
  rcases h with h | ⟨user, hu, hb⟩
  · exact detect_overspending_no_user store uid m y h
  · rw [detect_overspending_user store uid m y user hu, if_pos hb]

/-- Witness for C4: an absent user and a zero-budget user, both with
recorded expenses, yield the empty list. -/
theorem detect_overspending_empty_cases_witness :
    detect_overspending storeN "u1" 5 2024 = Except.ok [] ∧
    detect_overspending storeZ "u3" 5 2024 = Except.ok [] :=
  ⟨detect_overspending_empty_cases storeN "u1" 5 2024 (Or.inl (by rfl)),
   detect_overspending_empty_cases storeZ "u3" 5 2024
     (Or.inr ⟨userZ, by rfl, by rfl⟩)⟩

/-- C5: the Category Aggregator maps each breakdown name to the sum of the
amounts of the expenses resolving to it (so same-category expenses are
summed, a name appears exactly when some expense resolves to it, and an
unresolvable expense contributes nothing), appending an unresolvable
expense leaves the breakdown unchanged, and under positive amounts no
entry carries a zero (or nonpositive) aggregated spend. -/
theorem categorize_expenses_spec (cats : List Category) (es : List Expense)
    (hpos : ∀ e ∈ es, 0 < e.amount) :
    (∀ name, findVal (categorize_expenses cats es) name =
      if es.any (fun e => resolvedName cats e == some name) then some (sumFor cats es name)
      else none)
    ∧ (∀ e, resolvedName cats e = none →
        categorize_expenses cats (es ++ [e]) = categorize_expenses cats es)
    ∧ (∀ name v, findVal (categorize_expenses cats es) name = some v → 0 < v) := by
  refine ⟨fun name => findVal_categorize cats es name, ?_, ?_⟩
  · intro e he
    unfold categorize_expenses
    rw [List.foldl_append, List.foldl_cons, List.foldl_nil,
      categorizeStep_none cats _ e (Option.map_eq_none'.mp he)]
  · intro name v hv
    obtain ⟨e0, he0, hr0⟩ := exists_resolving_of_findVal cats es name v hv
    rw [findVal_categorize,
      if_pos (by simpa [List.any_eq_true] using ⟨e0, he0, hr0⟩)] at hv
    obtain rfl := Option.some.inj hv
    apply List.sum_pos
    · intro x hx
      obtain ⟨e, he, hxe⟩ := List.mem_map.mp hx
      rw [← hxe]
      exact hpos e (List.mem_of_mem_filter he)
    · intro hnil
      rw [List.map_eq_nil_iff] at hnil
      have hmem : e0 ∈ es.filter (fun e => resolvedName cats e == some name) :=
        List.mem_filter.mpr ⟨he0, by simp [hr0]⟩
      rw [hnil] at hmem
      cases hmem

/-- Witness for C5 on the single-expense fixture: the positivity hypothesis
holds and the breakdown maps the food category to 600. -/
theorem categorize_expenses_spec_witness :
    (0 : ℚ) < 600 ∧
    findVal (categorize_expenses [catFood] [expFood]) "Food & Dining" = some 600 := by
  refine ⟨by norm_num, ?_⟩
  rw [(categorize_expenses_spec [catFood] [expFood]
    (by intro e he; rw [List.mem_singleton.mp he]; norm_num [expFood])).1 "Food & Dining",
    if_pos (by rfl)]
  norm_num [sumFor, List.filter, resolvedName, dictById, catFood, expFood]

lemma effectivePeriod_truthy (now : Int × Int) (m y : Int) (hm : m ≠ 0) (hy : y ≠ 0) :
    effectivePeriod now (some m) (some y) = (m, y) := by
  simp [effectivePeriod, pyTruthy, hm, hy]

lemma get_spending_analysis_ok_char (store : Store) (now : Int × Int) (uid : String)
    (monthQ yearQ : Option Int) (a : SpendingAnalysis) :
    get_spending_analysis store now uid monthQ yearQ = Except.ok a ↔
    ∃ os, detect_overspending store uid (effectivePeriod now monthQ yearQ).1
        (effectivePeriod now monthQ yearQ).2 = Except.ok os ∧
      a = { total_income := totalOfIncome (get_monthly_data store uid
              (effectivePeriod now monthQ yearQ).1 (effectivePeriod now monthQ yearQ).2).1
            total_expenses := totalOfExpenses (get_monthly_data store uid
              (effectivePeriod now monthQ yearQ).1 (effectivePeriod now monthQ yearQ).2).2
            remaining_budget := totalOfIncome (get_monthly_data store uid
              (effectivePeriod now monthQ yearQ).1 (effectivePeriod now monthQ yearQ).2).1 -
              totalOfExpenses (get_monthly_data store uid
              (effectivePeriod now monthQ yearQ).1 (effectivePeriod now monthQ yearQ).2).2
            category_breakdown := categorize_expenses store.categories
              (get_monthly_data store uid (effectivePeriod now monthQ yearQ).1
                (effectivePeriod now monthQ yearQ).2).2
            overspending_categories := os
            savings_rate :=
              if totalOfIncome (get_monthly_data store uid
                  (effectivePeriod now monthQ yearQ).1 (effectivePeriod now monthQ yearQ).2).1
                  > 0 then
                (totalOfIncome (get_monthly_data store uid
                  (effectivePeriod now monthQ yearQ).1 (effectivePeriod now monthQ yearQ).2).1 -
                 totalOfExpenses (get_monthly_data store uid
                  (effectivePeriod now monthQ yearQ).1
                  (effectivePeriod now monthQ yearQ).2).2) /
                totalOfIncome (get_monthly_data store uid
                  (effectivePeriod now monthQ yearQ).1
                  (effectivePeriod now monthQ yearQ).2).1 * 100
              else 0
            month_comparison :=
              { current_month := totalOfExpenses (get_monthly_data store uid
                  (effectivePeriod now monthQ yearQ).1 (effectivePeriod now monthQ yearQ).2).2
                previous_month := totalOfExpenses (get_monthly_data store uid
                  (prevPeriod (effectivePeriod now monthQ yearQ).1
                    (effectivePeriod now monthQ yearQ).2).1
                  (prevPeriod (effectivePeriod now monthQ yearQ).1
                    (effectivePeriod now monthQ yearQ).2).2).2
                difference := totalOfExpenses (get_monthly_data store uid
                  (effectivePeriod now monthQ yearQ).1
                  (effectivePeriod now monthQ yearQ).2).2 -
                  totalOfExpenses (get_monthly_data store uid
                  (prevPeriod (effectivePeriod now monthQ yearQ).1
                    (effectivePeriod now monthQ yearQ).2).1
                  (prevPeriod (effectivePeriod now monthQ yearQ).1
                    (effectivePeriod now monthQ yearQ).2).2).2
                percentage_change :=
                  if totalOfExpenses (get_monthly_data store uid
                      (prevPeriod (effectivePeriod now monthQ yearQ).1
                        (effectivePeriod now monthQ yearQ).2).1
                      (prevPeriod (effectivePeriod now monthQ yearQ).1
                        (effectivePeriod now monthQ yearQ).2).2).2 > 0 then
                    (totalOfExpenses (get_monthly_data store uid
                      (effectivePeriod now monthQ yearQ).1
                      (effectivePeriod now monthQ yearQ).2).2 -
                     totalOfExpenses (get_monthly_data store uid
                      (prevPeriod (effectivePeriod now monthQ yearQ).1
                        (effectivePeriod now monthQ yearQ).2).1
                      (prevPeriod (effectivePeriod now monthQ yearQ).1
                        (effectivePeriod now monthQ yearQ).2).2).2) /
                    totalOfExpenses (get_monthly_data store uid
                      (prevPeriod (effectivePeriod now monthQ yearQ).1
                        (effectivePeriod now monthQ yearQ).2).1
                      (prevPeriod (effectivePeriod now monthQ yearQ).1
                        (effectivePeriod now monthQ yearQ).2).2).2 * 100
                  else 0 } } := by
  simp only [get_spending_analysis]
  cases hd : detect_overspending store uid (effectivePeriod now monthQ yearQ).1
      (effectivePeriod now monthQ yearQ).2 with
  | error e =>
      rw [exceptErrBind]
      constructor
      · intro h; cases h
      · rintro ⟨os, hos, -⟩
        cases hos
  | ok os =>
      rw [exceptOkBind]
      constructor
      · intro h
        exact ⟨os, rfl, (Except.ok.inj h).symm⟩
      · rintro ⟨os', hos, rfl⟩
        obtain rfl := Except.ok.inj hos
        rfl

/-- C6: in every analysis response, savings_rate equals
remaining_budget / total_income × 100 when total_income is positive, and 0
when total_income is 0. -/
theorem savings_rate_spec (store : Store) (now : Int × Int) (uid : String)
    (monthQ yearQ : Option Int) (a : SpendingAnalysis)
    (h : get_spending_analysis store now uid monthQ yearQ = Except.ok a) :
    (0 < a.total_income → a.savings_rate = a.remaining_budget / a.total_income * 100)
    ∧ (a.total_income = 0 → a.savings_rate = 0) := by
  obtain ⟨os, -, rfl⟩ := (get_spending_analysis_ok_char store now uid monthQ yearQ a).mp h
  constructor
  · intro hti
    dsimp only at hti ⊢
    rw [if_pos hti]
  · intro hti
    dsimp only at hti ⊢
    rw [hti]
    simp

/-- Witness for C6: the fixture analysis with no income has savings_rate 0. -/
theorem savings_rate_spec_witness :
    ∃ a, get_spending_analysis storeA (5, 2024) "u1" (some 5) (some 2024) = Except.ok a ∧
      a.savings_rate = 0 := by
  have hdet : detect_overspending storeA "u1" (effectivePeriod (5, 2024) (some 5)
      (some 2024)).1 (effectivePeriod (5, 2024) (some 5) (some 2024)).2 =
      Except.ok [recFood] := by
    rw [effectivePeriod_truthy (5, 2024) 5 2024 (by norm_num) (by norm_num)]
    exact detectA
  have h := (get_spending_analysis_ok_char storeA (5, 2024) "u1" (some 5) (some 2024)
    _).mpr ⟨[recFood], hdet, rfl⟩
  refine ⟨_, h, ?_⟩
  exact (savings_rate_spec storeA (5, 2024) "u1" (some 5) (some 2024) _ h).2 (by rfl)

/-- C7: in every analysis response, month_comparison carries
current_month = total_expenses, previous_month = the previous period's
expense total, difference = their difference, and percentage_change =
difference / previous total × 100 when the previous total is positive,
else 0. -/
theorem month_comparison_spec (store : Store) (now : Int × Int) (uid : String)
    (monthQ yearQ : Option Int) (a : SpendingAnalysis)
    (h : get_spending_analysis store now uid monthQ yearQ = Except.ok a) :
    a.month_comparison.current_month = a.total_expenses
    ∧ a.month_comparison.previous_month = totalOfExpenses ((get_monthly_data store uid
        (prevPeriod (effectivePeriod now monthQ yearQ).1
          (effectivePeriod now monthQ yearQ).2).1
        (prevPeriod (effectivePeriod now monthQ yearQ).1
          (effectivePeriod now monthQ yearQ).2).2).2)
    ∧ a.month_comparison.difference =
        a.total_expenses - a.month_comparison.previous_month
    ∧ (0 < a.month_comparison.previous_month →
        a.month_comparison.percentage_change =
          a.month_comparison.difference / a.month_comparison.previous_month * 100)
    ∧ (a.month_comparison.previous_month = 0 →
        a.month_comparison.percentage_change = 0) := by
  obtain ⟨os, -, rfl⟩ := (get_spending_analysis_ok_char store now uid monthQ yearQ a).mp h
  refine ⟨rfl, rfl, rfl, ?_, ?_⟩
  · intro hp
    dsimp only at hp ⊢
    rw [if_pos hp]
  · intro hp
    dsimp only at hp ⊢
    rw [hp]
    simp

/-- Witness for C7: the fixture analysis has no previous-month expenses, so
percentage_change is 0 and the difference equals the current total. -/
theorem month_comparison_spec_witness :
    ∃ a, get_spending_analysis storeA (5, 2024) "u1" (some 5) (some 2024) = Except.ok a ∧
      a.month_comparison.current_month = a.total_expenses ∧
      a.month_comparison.percentage_change = 0 := by
  have hdet : detect_overspending storeA "u1" (effectivePeriod (5, 2024) (some 5)
      (some 2024)).1 (effectivePeriod (5, 2024) (some 5) (some 2024)).2 =
      Except.ok [recFood] := by
    rw [effectivePeriod_truthy (5, 2024) 5 2024 (by norm_num) (by norm_num)]
    exact detectA
  have h := (get_spending_analysis_ok_char storeA (5, 2024) "u1" (some 5) (some 2024)
    _).mpr ⟨[recFood], hdet, rfl⟩
  have hs := month_comparison_spec storeA (5, 2024) "u1" (some 5) (some 2024) _ h
  exact ⟨_, h, hs.1, hs.2.2.2.2 (by rfl)⟩

/-- C8: the previous-period lookup is a calendar rollback: month − 1 of the
same year when month > 1, and month 12 of year − 1 when month = 1; the
analysis' previous_month total is fetched at exactly that period. -/
theorem prev_period_spec (m y : Int) :
    (1 < m → prevPeriod m y = (m - 1, y))
    ∧ (m = 1 → prevPeriod m y = (12, y - 1))
    ∧ (∀ (store : Store) (now : Int × Int) (uid : String) (a : SpendingAnalysis),
        get_spending_analysis store now uid (some m) (some y) = Except.ok a →
        m ≠ 0 → y ≠ 0 →
        a.month_comparison.previous_month =
          totalOfExpenses ((get_monthly_data store uid (prevPeriod m y).1
            (prevPeriod m y).2).2)) := by
  refine ⟨?_, ?_, ?_⟩
  · intro hm
    rw [prevPeriod, if_pos hm, if_pos hm]
  · intro hm
    subst hm
    rw [prevPeriod, if_neg (by norm_num), if_neg (by norm_num)]
  · intro store now uid a h hm hy
    have hs := (month_comparison_spec store now uid (some m) (some y) a h).2.1
    rw [effectivePeriod_truthy now m y hm hy] at hs
    exact hs

/-- Witness for C8: from May 2024 the previous period is April 2024; from
January 2024 it is December 2023. -/
theorem prev_period_spec_witness :
    prevPeriod 5 2024 = (4, 2024) ∧ prevPeriod 1 2024 = (12, 2023) :=
  ⟨(prev_period_spec 5 2024).1 (by norm_num), (prev_period_spec 1 2024).2.1 rfl⟩

lemma buildQuery_not_truthy (uid : String) (monthQ yearQ : Option Int)
    (h : (pyTruthy monthQ && pyTruthy yearQ) = false) :
    buildQuery uid monthQ yearQ = { user_id := uid, month := none, year := none } := by
  simp [buildQuery, h]

lemma buildQuery_truthy (uid : String) (m y : Int) (hm : m ≠ 0) (hy : y ≠ 0) :
    buildQuery uid (some m) (some y) =
      { user_id := uid, month := some m, year := some y } := by
  simp [buildQuery, pyTruthy, hm, hy]

/-- C9: an accepted income or expense record stores the month and year
components of its parsed date, and the month/year supplied by the caller
have no influence on the result. -/
theorem record_month_year_derived (parse : String → Option DateObj)
    (inc : Income) (exp : Expense) (mQ yQ : Int) :
    (∀ stored, add_income parse inc = some stored →
      ∃ d, parse (inc.date.replace "Z" "+00:00") = some d ∧
        stored.month = d.month ∧ stored.year = d.year)
    ∧ add_income parse { inc with month := mQ, year := yQ } = add_income parse inc
    ∧ (∀ stored, add_expense parse exp = some stored →
      ∃ d, parse (exp.date.replace "Z" "+00:00") = some d ∧
        stored.month = d.month ∧ stored.year = d.year)
    ∧ add_expense parse { exp with month := mQ, year := yQ } = add_expense parse exp := by
  refine ⟨?_, ?_, ?_, ?_⟩
  · intro stored h
    unfold add_income at h
    cases hp : parse (inc.date.replace "Z" "+00:00") with
    | none => rw [hp] at h; cases h
    | some d =>
        rw [hp] at h
        obtain rfl := Option.some.inj h
        exact ⟨d, rfl, rfl, rfl⟩
  · unfold add_income
    rfl
  · intro stored h
    unfold add_expense at h
    cases hp : parse (exp.date.replace "Z" "+00:00") with
    | none => rw [hp] at h; cases h
    | some d =>
        rw [hp] at h
        obtain rfl := Option.some.inj h
        exact ⟨d, rfl, rfl, rfl⟩
  · unfold add_expense
    rfl

/-- Witness for C9: under the fixture parser the stored month/year come
from the parsed date and caller-supplied values are ignored. -/
theorem record_month_year_derived_witness :
    add_income parseFix { incFix with month := 12, year := 2000 } =
      add_income parseFix incFix ∧
    add_expense parseFix { expFood with month := 12, year := 2000 } =
      add_expense parseFix expFood ∧
    add_income parseFix incFix = some { incFix with month := 7, year := 2031 } :=
  ⟨(record_month_year_derived parseFix incFix expFood 12 2000).2.1,
   (record_month_year_derived parseFix incFix expFood 12 2000).2.2.2,
   rfl⟩

/-- C10: the list-income and list-expenses month/year filter applies only
when both parameters are supplied and nonzero; otherwise every record of
the user is returned. -/
theorem list_filter_spec (store : Store) (uid : String) (monthQ yearQ : Option Int) :
    (¬(pyTruthy monthQ = true ∧ pyTruthy yearQ = true) →
      get_income store uid monthQ yearQ = store.income.filter (fun i => i.user_id == uid)
      ∧ get_expenses store uid monthQ yearQ =
          store.expenses.filter (fun e => e.user_id == uid))
    ∧ (∀ m y, monthQ = some m → yearQ = some y → m ≠ 0 → y ≠ 0 →
      get_income store uid monthQ yearQ = store.income.filter
        (fun i => i.user_id == uid && i.month == m && i.year == y)
      ∧ get_expenses store uid monthQ yearQ = store.expenses.filter
        (fun e => e.user_id == uid && e.month == m && e.year == y)) := by
  constructor
  · intro hng
    have hb : (pyTruthy monthQ && pyTruthy yearQ) = false := by
      cases hM : pyTruthy monthQ <;> cases hY : pyTruthy yearQ <;> simp_all
    constructor
    · unfold get_income
      rw [buildQuery_not_truthy uid monthQ yearQ hb]
      apply List.filter_congr
      intro i _
      simp [incomeMatches, matchOpt]
    · unfold get_expenses
      rw [buildQuery_not_truthy uid monthQ yearQ hb]
      apply List.filter_congr
      intro e _
      simp [expenseMatches, matchOpt]
  · rintro m y rfl rfl hm hy
    constructor
    · unfold get_income
      rw [buildQuery_truthy uid m y hm hy]
      apply List.filter_congr
      intro i _
      simp [incomeMatches, matchOpt]
    · unfold get_expenses
      rw [buildQuery_truthy uid m y hm hy]
      apply List.filter_congr
      intro e _
      simp [expenseMatches, matchOpt]

/-- Witness for C10: with only a month supplied both income records of the
user come back; with month and year supplied only the matching one does. -/
theorem list_filter_spec_witness :
    get_income storeI "u1" (some 5) none = [incMay, incApr] ∧
    get_income storeI "u1" (some 5) (some 2024) = [incMay] := by
  constructor
  · rw [((list_filter_spec storeI "u1" (some 5) none).1 (by simp [pyTruthy])).1]
    rfl
  · rw [((list_filter_spec storeI "u1" (some 5) (some 2024)).2 5 2024 rfl rfl
      (by norm_num) (by norm_num)).1]
    rfl
